import Mathlib

/-!
Verification development for the `mousekey` key-sequence compiler and
input-injection engine (src/__init__.py).

The definitions below are a shallow embedding of the Python source:

* the key-sequence compiler `parse_keys` / `handle_code`
  (src/__init__.py lines 2408-2575);
* the action model `KeyAction` / `VirtualKeyAction` / `EscapedKeyAction` /
  `PauseAction` and the global injection path (`KeyAction.GetInput`,
  `KeyAction.run`, `VirtualKeyAction.run`, `EscapedKeyAction.run`, `Press`);
* the targeted injection path `send_keystrokes` (lines 3022-3156), modelled
  as a state machine over an explicit keyboard-state snapshot stack and an
  event trace, with OS calls (`PostMessage`, `SetKeyboardState`,
  `AttachThreadInput`, ...) recorded as trace events, the keyboard layout
  (`MapVirtualKeyW`, `VkKeyScanW`, `VkKeyScanExW`) as an abstract parameter,
  and possible OS-call failures inside the loop as an oracle telling which
  `PostMessage` call (by index) raises;
* the scheduler's `log_split` (lines 1554-1576).

Python strings are `List Char`; Python ints are `Nat`/`Int`; raised
exceptions are an explicit error type `PErr`.  The compiler's recursion is
bounded by a fuel parameter so that all definitions are structurally
recursive and computable; every recursive call of the source strictly
shrinks its string argument, so the fuel supplied by the `parse_keys`
wrapper (`2 * length + 4`) is never exhausted on any input that the
source itself would terminate on.
-/

/-! ### Constants (src/__init__.py lines 1912-1929, 2625-2628) -/

def DEBUG : Nat := 0
def INPUT_KEYBOARD : Nat := 1
def KEYEVENTF_EXTENDEDKEY : Nat := 1
def KEYEVENTF_KEYUP : Nat := 2
def KEYEVENTF_UNICODE : Nat := 4
def VK_SHIFT : Nat := 16
def VK_CONTROL : Nat := 17
def VK_MENU : Nat := 18
def WM_SYSKEYDOWN : Nat := 0x0104
def WM_SYSKEYUP : Nat := 0x0105
def WM_KEYDOWN : Nat := 0x0100
def WM_KEYUP : Nat := 0x0101

/-- The named-key table `CODES` (src/__init__.py lines 1932-2089). -/
def CODES : List (String × Nat) :=
  [("BACK", 8), ("BACKSPACE", 8), ("BKSP", 8), ("BREAK", 3), ("BS", 8),
   ("CAP", 20), ("CAPSLOCK", 20), ("DEL", 46), ("DELETE", 46), ("DOWN", 40),
   ("END", 35), ("ENTER", 13), ("ESC", 27),
   ("F1", 112), ("F2", 113), ("F3", 114), ("F4", 115), ("F5", 116),
   ("F6", 117), ("F7", 118), ("F8", 119), ("F9", 120), ("F10", 121),
   ("F11", 122), ("F12", 123), ("F13", 124), ("F14", 125), ("F15", 126),
   ("F16", 127), ("F17", 128), ("F18", 129), ("F19", 130), ("F20", 131),
   ("F21", 132), ("F22", 133), ("F23", 134), ("F24", 135),
   ("HELP", 47), ("HOME", 36), ("INS", 45), ("INSERT", 45), ("LEFT", 37),
   ("LWIN", 91), ("NUMLOCK", 144), ("PGDN", 34), ("PGUP", 33),
   ("PRTSC", 44), ("RIGHT", 39), ("RMENU", 165), ("RWIN", 92),
   ("SCROLLLOCK", 145), ("SPACE", 32), ("TAB", 9), ("UP", 38),
   ("VK_ACCEPT", 30), ("VK_ADD", 107), ("VK_APPS", 93), ("VK_ATTN", 246),
   ("VK_BACK", 8), ("VK_CANCEL", 3), ("VK_CAPITAL", 20), ("VK_CLEAR", 12),
   ("VK_CONTROL", 17), ("VK_CONVERT", 28), ("VK_CRSEL", 247),
   ("VK_DECIMAL", 110), ("VK_DELETE", 46), ("VK_DIVIDE", 111),
   ("VK_DOWN", 40), ("VK_END", 35), ("VK_EREOF", 249), ("VK_ESCAPE", 27),
   ("VK_EXECUTE", 43), ("VK_EXSEL", 248),
   ("VK_F1", 112), ("VK_F2", 113), ("VK_F3", 114), ("VK_F4", 115),
   ("VK_F5", 116), ("VK_F6", 117), ("VK_F7", 118), ("VK_F8", 119),
   ("VK_F9", 120), ("VK_F10", 121), ("VK_F11", 122), ("VK_F12", 123),
   ("VK_F13", 124), ("VK_F14", 125), ("VK_F15", 126), ("VK_F16", 127),
   ("VK_F17", 128), ("VK_F18", 129), ("VK_F19", 130), ("VK_F20", 131),
   ("VK_F21", 132), ("VK_F22", 133), ("VK_F23", 134), ("VK_F24", 135),
   ("VK_FINAL", 24), ("VK_HANGEUL", 21), ("VK_HANGUL", 21),
   ("VK_HANJA", 25), ("VK_HELP", 47), ("VK_HOME", 36), ("VK_INSERT", 45),
   ("VK_JUNJA", 23), ("VK_KANA", 21), ("VK_KANJI", 25), ("VK_LBUTTON", 1),
   ("VK_LCONTROL", 162), ("VK_LEFT", 37), ("VK_LMENU", 164),
   ("VK_LSHIFT", 160), ("VK_LWIN", 91), ("VK_MBUTTON", 4), ("VK_MENU", 18),
   ("VK_MODECHANGE", 31), ("VK_MULTIPLY", 106), ("VK_NEXT", 34),
   ("VK_NONAME", 252), ("VK_NONCONVERT", 29), ("VK_NUMLOCK", 144),
   ("VK_NUMPAD0", 96), ("VK_NUMPAD1", 97), ("VK_NUMPAD2", 98),
   ("VK_NUMPAD3", 99), ("VK_NUMPAD4", 100), ("VK_NUMPAD5", 101),
   ("VK_NUMPAD6", 102), ("VK_NUMPAD7", 103), ("VK_NUMPAD8", 104),
   ("VK_NUMPAD9", 105), ("VK_OEM_CLEAR", 254), ("VK_PA1", 253),
   ("VK_PAUSE", 19), ("VK_PLAY", 250), ("VK_PRINT", 42), ("VK_PRIOR", 33),
   ("VK_PROCESSKEY", 229), ("VK_RBUTTON", 2), ("VK_RCONTROL", 163),
   ("VK_RETURN", 13), ("VK_RIGHT", 39), ("VK_RMENU", 165),
   ("VK_RSHIFT", 161), ("VK_RWIN", 92), ("VK_SCROLL", 145),
   ("VK_SELECT", 41), ("VK_SEPARATOR", 108), ("VK_SHIFT", 16),
   ("VK_SNAPSHOT", 44), ("VK_SPACE", 32), ("VK_SUBTRACT", 109),
   ("VK_TAB", 9), ("VK_UP", 38), ("ZOOM", 251)]

/-- `MODIFIERS` (lines 2091-2095): `+` is SHIFT, `^` is CONTROL, `%` is ALT. -/
def MODIFIERS (c : Char) : Option Nat :=
  if c = '+' then some VK_SHIFT
  else if c = '^' then some VK_CONTROL
  else if c = '%' then some VK_MENU
  else none

/-- `ascii_vk` (lines 2096-2111): punctuation map, plus uppercase letters and
digits mapped to their own code points, plus lowercase letters mapped to the
code point of their uppercase form. -/
def ascii_vk (c : Char) : Option Nat :=
  if c = ' ' then some 0x20
  else if c = '=' then some 0xBB
  else if c = ',' then some 0xBC
  else if c = '-' then some 0xBD
  else if c = '.' then some 0xBE
  else if c = ';' then some 0xBA
  else if c = '/' then some 0xBF
  else if c = '`' then some 0xC0
  else if c = '[' then some 0xDB
  else if c = '\\' then some 0xDC
  else if c = ']' then some 0xDD
  else if c = '\'' then some 0xDE
  else if c.isUpper ∨ c.isDigit then some c.toNat
  else if c.isLower then some (c.toNat - 32)
  else none

/-! ### Exceptions

Python exceptions raised by the embedded code.  `KeySequenceError` is the
parser's own syntax-error class (line 2150); the others are builtin Python
exceptions the code can raise (`RuntimeError` in `handle_code`, `ValueError`
from tuple unpacking, `IndexError` from indexing/popping an empty list,
`AttributeError` from `PauseAction` missing `.key`), plus an abstract
`osError` standing for a failing OS call (used by the fault oracle of the
targeted injection path).  `outOfFuel` is an artefact of the bounded
embedding and corresponds to no Python behaviour. -/

inductive PErr where
  | keySequenceError (msg : String)
  | runtimeError (msg : String)
  | valueError
  | indexError
  | attributeError
  | osError
  | outOfFuel
  deriving DecidableEq, Repr

/-! ### The action model

One compiled step.  `keyAction` is the base `KeyAction` class holding a
character key (sent as Unicode), `virtualKey` is `VirtualKeyAction`,
`escapedKey` is `EscapedKeyAction`, `pause` is `PauseAction`.  The `down`/
`up` booleans are the constructor arguments of the same names.  A pause
stores the literal text of its duration; no claim inspects the numeric
value, only whether the text parses as a Python float. -/

inductive KAction where
  | keyAction (key : Char) (down up : Bool)
  | virtualKey (key : Nat) (down up : Bool)
  | escapedKey (key : Char) (down up : Bool)
  | pause (howLong : List Char)
  deriving DecidableEq, Repr

/-- `self.down` of an action (a `PauseAction` has no such attribute; the one
use in `send_keystrokes` is unreachable because `get_key_info` raises
first). -/
def KAction.downF : KAction → Bool
  | .keyAction _ d _ => d
  | .virtualKey _ d _ => d
  | .escapedKey _ d _ => d
  | .pause _ => false

/-- `self.up` of an action (same caveat as `KAction.downF` for pauses). -/
def KAction.upF : KAction → Bool
  | .keyAction _ _ u => u
  | .virtualKey _ _ u => u
  | .escapedKey _ _ u => u
  | .pause _ => false

/-- Assignment `action.down = False` (parse_keys line 2519). -/
def KAction.setDownFalse : KAction → KAction
  | .keyAction c _ u => .keyAction c false u
  | .virtualKey k _ u => .virtualKey k false u
  | .escapedKey c _ u => .escapedKey c false u
  | .pause t => .pause t

/-- Assignment `action.up = False` (parse_keys line 2521). -/
def KAction.setUpFalse : KAction → KAction
  | .keyAction c d _ => .keyAction c d false
  | .virtualKey k d _ => .virtualKey k d false
  | .escapedKey c d _ => .escapedKey c d false
  | .pause t => .pause t

/-- `isinstance(k, EscapedKeyAction)` (used at line 3075). -/
def KAction.isEscapedB : KAction → Bool
  | .escapedKey _ _ _ => true
  | _ => false

/-! ### Python string helpers -/

/-- Whitespace for Python's `str.split(None)` / `str.strip()`. -/
def pyWs (c : Char) : Bool :=
  c == ' ' || c == '\t' || c == '\n' || c == '\r' || c == '\x0b' || c == '\x0c'

/-- Strip `pyWs` characters from both ends. -/
def stripWs (s : List Char) : List Char :=
  ((s.dropWhile pyWs).reverse.dropWhile pyWs).reverse

/-- Python's substring test `needle in haystack`. -/
def containsSub (needle : List Char) : List Char → Bool
  | [] => needle.isEmpty
  | c :: rest => needle.isPrefixOf (c :: rest) || containsSub needle rest

/-- Python's `s.rsplit(None, 1)` under the promise that the caller unpacks
the result into exactly two variables: `none` models the `ValueError` from
unpacking fewer than two parts. -/
def rsplitNone1 (s : List Char) : Option (List Char × List Char) :=
  let r := s.reverse.dropWhile pyWs
  let countPart := r.takeWhile (fun c => ¬ pyWs c)
  let leftPart := (r.dropWhile (fun c => ¬ pyWs c)).dropWhile pyWs
  if countPart = [] ∨ leftPart = [] then none
  else some (leftPart.reverse, countPart.reverse)

/-- Digit run to a number; `none` when empty or not all digits. -/
def digitsToNat (s : List Char) : Option Nat :=
  if s ≠ [] ∧ s.all Char.isDigit then
    some (s.foldl (fun acc c => 10 * acc + (c.toNat - 48)) 0)
  else none

/-- Python's `int(str)`: optional surrounding whitespace, optional sign,
decimal digits.  (Underscore digit separators are not modelled; no input in
this development contains them.) -/
def parseInt (s : List Char) : Option Int :=
  match stripWs s with
  | '-' :: ds => (digitsToNat ds).map (fun n => -(n : Int))
  | '+' :: ds => (digitsToNat ds).map (fun n => (n : Int))
  | ds => (digitsToNat ds).map (fun n => (n : Int))

/-- Whether Python's `float(str)` accepts the text: optional sign and either
`digits`, `digits.digits?`, or `.digits` (scientific notation, inf and nan
are not modelled; no claim depends on them). -/
def floatOkCore (s : List Char) : Bool :=
  let intPart := s.takeWhile Char.isDigit
  let rest := s.dropWhile Char.isDigit
  match rest with
  | [] => ¬ intPart.isEmpty
  | '.' :: frac => (¬ intPart.isEmpty ∨ ¬ frac.isEmpty) && frac.all Char.isDigit
  | _ => false

/-- See `floatOkCore`; handles stripping and the sign. -/
def floatOk (s : List Char) : Bool :=
  match stripWs s with
  | '-' :: ds => floatOkCore ds
  | '+' :: ds => floatOkCore ds
  | ds => floatOkCore ds

/-! ### The key-sequence compiler -/

/-- The modifier-release loop `while modifiers: keys.append(
VirtualKeyAction(modifiers.pop(), down=False))` (lines 2566-2569 and
2572-2573).  The head of our modifier list is the most recently appended
element of the Python list, which `pop()` removes first. -/
def releaseAll (modifiers : List Nat) : List KAction :=
  modifiers.map (fun m => KAction.virtualKey m false true)

/-- Lines 2514-2521: after `handle_code`, when an ` up`/` down` qualifier was
present, the first returned action is converted to an `EscapedKeyAction`
when its key is a string, and its `down` or `up` flag is cleared.
`current_keys[0]` on an empty list would be an `IndexError` and
`PauseAction.key` an `AttributeError`; both are unreachable from
`parse_keys` because the qualifier path always hands `handle_code` a
space-free code. -/
def applyKeyEvent (currentKeys : List KAction) (ev : List Char) :
    Except PErr (List KAction) :=
  match currentKeys with
  | [] => .error .indexError
  | k :: ks =>
    match k with
    | .pause _ => .error .attributeError
    | _ =>
      let k1 :=
        match k with
        | .keyAction c _ _ => KAction.escapedKey c true true
        | .escapedKey c _ _ => KAction.escapedKey c true true
        | other => other
      let k2 := if stripWs ev = ['u', 'p'] then k1.setDownFalse else k1.setUpFalse
      .ok (k2 :: ks)

/-- `handle_code(code, vk_packet)` (lines 2408-2451), abstracted over the
recursive call back into `parse_keys` (`parseCb`, used by the repetition
branch).  `[x] * count` with a negative count is the empty list, hence
`Int.toNat`. -/
def handleCodeF (parseCb : List Char → Except PErr (List KAction))
    (code : List Char) (vkPacket : Bool) : Except PErr (List KAction) :=
  match List.lookup (String.mk code) CODES with
  | some v => .ok [KAction.virtualKey v true true]
  | none =>
    if code.length = 1 then
      let c := code.headD ' '
      if ¬ vkPacket ∧ (ascii_vk c).isSome then
        .ok [KAction.virtualKey ((ascii_vk c).getD 0) true true]
      else
        .ok [KAction.keyAction c true true]
    else if code.contains ' ' then
      match rsplitNone1 code with
      | none => .error .valueError
      | some (toRepeat, count) =>
        if toRepeat = ['P', 'A', 'U', 'S', 'E'] then
          if floatOk count then .ok [KAction.pause count]
          else .error (.keySequenceError ("invalid pause time " ++ String.mk count))
        else
          match parseInt count with
          | none =>
            .error (.keySequenceError ("invalid repetition count " ++ String.mk count))
          | some n =>
            match List.lookup (String.mk toRepeat) CODES with
            | some v =>
              .ok (List.flatten (List.replicate n.toNat [KAction.virtualKey v true true]))
            | none => do
              let ks ← parseCb toRepeat
              .ok (List.flatten (List.replicate n.toNat ks))
    else
      .error (.runtimeError ("Unknown code: " ++ String.mk code))

/-- The body of `parse_keys` (lines 2454-2575).  One call processes the
character list `s`, threading the pending-modifier list (Python mutates a
possibly shared list; every return point of the Python function has drained
it, so the recursive group call is followed by an empty modifier list in the
caller as well) and the call-local `should_escape_next_keys` flag.  The fuel
argument only bounds the recursion for Lean; every recursive call of the
source shrinks its string, so the wrapper's fuel is never exhausted. -/
def parseKeysAux : Nat → List Char → Bool → Bool → Bool → List Nat → Bool →
    Bool → Except PErr (List KAction)
  | 0, _, _, _, _, _, _, _ => .error .outOfFuel
  | Nat.succ fuel, s, withSpaces, withTabs, withNewlines, modifiers,
      shouldEscape, vkPacket =>
    match s with
    | [] => .ok (releaseAll modifiers)
    | c :: rest =>
      match MODIFIERS c with
      | some modifier =>
        -- lines 2476-2484: push the modifier, emit its hold-down action,
        -- `continue` (the release loop is skipped)
        (parseKeysAux fuel rest withSpaces withTabs withNewlines
            (modifier :: modifiers) shouldEscape vkPacket).map
          (fun ks => KAction.virtualKey modifier true false :: ks)
      | none =>
        if c = '(' then
          -- lines 2487-2497: group; recursive call with the modifier list,
          -- spaces/tabs/newlines options not forwarded (defaults)
          match rest.dropWhile (fun ch => ch ≠ ')') with
          | [] => .error (.keySequenceError ("close paren not found"))
          | _ :: after => do
            let innerKeys ← parseKeysAux fuel (rest.takeWhile (fun ch => ch ≠ ')'))
                false false false modifiers false vkPacket
            let restKeys ← parseKeysAux fuel after withSpaces withTabs
                withNewlines [] shouldEscape vkPacket
            .ok (innerKeys ++ restKeys)
        else if c = '{' then
          -- lines 2500-2522: named/escaped key; the closing brace is searched
          -- from index + 1, so the first code character may itself be a brace
          match rest with
          | [] => .error (.keySequenceError ("close brace not found"))
          | c0 :: rtail =>
            match rtail.dropWhile (fun ch => ch ≠ '}') with
            | [] => .error (.keySequenceError ("close brace not found"))
            | _ :: after =>
              let code := c0 :: rtail.takeWhile (fun ch => ch ≠ '}')
              if containsSub [' ', 'u', 'p'] (code.map Char.toLower)
                  || containsSub [' ', 'd', 'o', 'w', 'n'] (code.map Char.toLower) then
                -- `code, current_key_event = code.split(" ")`: unpacking
                -- succeeds exactly when the code holds a single space
                if code.count ' ' = 1 then do
                  let currentKeys ← handleCodeF
                      (fun t => parseKeysAux fuel t false false false [] false vkPacket)
                      (code.takeWhile (fun ch => ch ≠ ' ')) vkPacket
                  let currentKeys ← applyKeyEvent currentKeys
                      ((code.dropWhile (fun ch => ch ≠ ' ')).tail)
                  let restKeys ← parseKeysAux fuel after withSpaces withTabs
                      withNewlines [] true vkPacket
                  .ok (currentKeys ++ releaseAll modifiers ++ restKeys)
                else .error .valueError
              else do
                let currentKeys ← handleCodeF
                    (fun t => parseKeysAux fuel t false false false [] false vkPacket)
                    code vkPacket
                let restKeys ← parseKeysAux fuel after withSpaces withTabs
                    withNewlines [] shouldEscape vkPacket
                .ok (currentKeys ++ releaseAll modifiers ++ restKeys)
        else if c = ')' then
          .error (.keySequenceError ("close paren without open paren"))
        else if c = '}' then
          .error (.keySequenceError ("close brace without open brace"))
        else
          if (c = ' ' ∧ ¬ withSpaces) ∨ (c = '\t' ∧ ¬ withTabs)
              ∨ (c = '\n' ∧ ¬ withNewlines) then
            -- lines 2535-2543: dropped whitespace; `continue` skips the
            -- release loop, so pending modifiers stay pending
            parseKeysAux fuel rest withSpaces withTabs withNewlines modifiers
              shouldEscape vkPacket
          else
            let act :=
              if c = '~' ∨ c = '\n' then KAction.virtualKey 13 true true
              else if modifiers ≠ [] ∨ shouldEscape then KAction.escapedKey c true true
              else if ¬ vkPacket ∧ (ascii_vk c).isSome then
                KAction.virtualKey ((ascii_vk c).getD 0) true true
              else KAction.keyAction c true true
            (parseKeysAux fuel rest withSpaces withTabs withNewlines []
                shouldEscape vkPacket).map
              (fun ks => act :: (releaseAll modifiers ++ ks))

/-- `parse_keys(string, with_spaces, with_tabs, with_newlines, vk_packet)`
(line 2454) with a fresh modifier list.  The fuel `2 * length + 4` dominates
the length of any call chain (each step either consumes one character or
descends into a strictly shorter substring). -/
def parse_keys (s : String) (withSpaces withTabs withNewlines vkPacket : Bool) :
    Except PErr (List KAction) :=
  parseKeysAux (2 * s.data.length + 4) s.data withSpaces withTabs withNewlines
    [] false vkPacket

/-- `handle_code(code, vk_packet)` (line 2408) as a standalone entry point;
the fuel feeds the recursive `parse_keys` call of the repetition branch. -/
def handle_code (fuel : Nat) (code : List Char) (vkPacket : Bool) :
    Except PErr (List KAction) :=
  handleCodeF (fun t => parseKeysAux fuel t false false false [] false vkPacket)
    code vkPacket

instance {ε α : Type} [DecidableEq ε] [DecidableEq α] : DecidableEq (Except ε α) := fun x y =>
  match x, y with
  | .ok a, .ok b =>
    if h : a = b then isTrue (congrArg Except.ok h)
    else isFalse (fun hh => h (Except.ok.inj hh))
  | .error a, .error b =>
    if h : a = b then isTrue (congrArg Except.error h)
    else isFalse (fun hh => h (Except.error.inj hh))
  | .ok _, .error _ => isFalse (fun hh => Except.noConfusion hh)
  | .error _, .ok _ => isFalse (fun hh => Except.noConfusion hh)

/-! ### The global injection path

`KeyAction.GetInput` (lines 2250-2276) builds the array of `INPUT`
structures, `KeyAction.run` (lines 2278-2293) hands them to `SendInput` and
raises when the OS inserted a different number of events than requested.
`VirtualKeyAction.run` / `EscapedKeyAction.run` (lines 2356-2362, 2384-2389)
instead loop over the built inputs and call the press-and-release helper
`Press` (lines 1219-1236) once per input.  The OS's `SendInput` result and
`GetMessageExtraInfo` are parameters; `MapVirtualKeyW` / `VkKeyScanW` are
abstract layout functions. -/

/-- One `INPUT` structure as filled in by `KeyAction.GetInput` (only the
keyboard member is used). -/
structure InputRec where
  typ : Nat
  wVk : Nat
  wScan : Nat
  dwFlags : Nat
  dwExtraInfo : Nat
  deriving DecidableEq, Repr

/-- `LoByte` (lines 2578-2580). -/
def LoByte (val : Nat) : Nat := val &&& 0xFF

/-- `KeyAction.GetInput` (lines 2250-2276) for a given
`(virtual key, scan code, flags)` triple from `_get_key_info`: one entry,
or two when both `up` and `down` are requested; the last entry gets the
`KEYEVENTF_KEYUP` flag when `up` is requested. -/
def GetInput (info : Nat × Nat × Nat) (down up : Bool) (extraInfo : Nat) :
    List InputRec :=
  let actions : Nat := if up && down then 2 else 1
  let base : InputRec :=
    ⟨INPUT_KEYBOARD, info.1, info.2.1, info.2.2, extraInfo⟩
  let inputs := List.replicate actions base
  if up then
    inputs.dropLast ++ [{ base with dwFlags := base.dwFlags ||| KEYEVENTF_KEYUP }]
  else inputs

/-- `KeyAction._get_key_info` (lines 2236-2241): no virtual key, the
character's code point as scan code, and the Unicode flag. -/
def KeyAction_get_key_info (key : Char) : Nat × Nat × Nat :=
  (0, key.toNat, KEYEVENTF_UNICODE)

/-- `VirtualKeyAction._get_key_info` (lines 2342-2354): the key itself, its
`MapVirtualKeyW` scan code, and the extended flag for keys 33-46 and
91-93. -/
def VirtualKeyAction_get_key_info (mapVirtualKeyW : Nat → Nat) (key : Nat) :
    Nat × Nat × Nat :=
  (key, mapVirtualKeyW key,
    if (33 ≤ key ∧ key ≤ 46) ∨ (91 ≤ key ∧ key ≤ 93) then KEYEVENTF_EXTENDEDKEY
    else 0)

/-- `EscapedKeyAction._get_key_info` (lines 2371-2378): low byte of
`VkKeyScanW`, its `MapVirtualKeyW` scan code, no flags. -/
def EscapedKeyAction_get_key_info (mapVirtualKeyW : Nat → Nat)
    (vkKeyScanW : Char → Nat) (key : Char) : Nat × Nat × Nat :=
  (LoByte (vkKeyScanW key), mapVirtualKeyW (LoByte (vkKeyScanW key)), 0)

/-- `KeyAction.run` (lines 2278-2293): build the inputs, call `SendInput`
(whose result, the number of inserted events, is the parameter
`numInsertedEvents`), and raise `RuntimeError` when it differs from the
number of requested events. -/
def KeyAction_run (key : Char) (down up : Bool) (extraInfo : Nat)
    (numInsertedEvents : Nat) : Except PErr Unit :=
  let inputs := GetInput (KeyAction_get_key_info key) down up extraInfo
  if numInsertedEvents ≠ inputs.length then
    .error (.runtimeError ("SendInput() inserted only "
      ++ toString numInsertedEvents ++ " out of "
      ++ toString inputs.length ++ " keyboard events"))
  else .ok ()

/-- Events emitted by the global injection path. -/
inductive GEv where
  | sendInput (wVk : Nat) (dwFlags : Nat)
  | gsleep
  deriving DecidableEq, Repr

/-- `Press(keycode, delay)` (lines 1219-1236): one `SendInput` key-down, a
sleep, one `SendInput` key-up — always a complete press-and-release cycle.
(The string-keycode lookup through `allkeys` is outside the claims; callers
in this development pass numeric codes.) -/
def Press (keycode : Nat) : List GEv :=
  [.sendInput keycode 0, .gsleep, .sendInput keycode KEYEVENTF_KEYUP]

/-- `VirtualKeyAction.run` (lines 2356-2362): `for inp in self.GetInput():
Press(inp.ki.wVk)` — the emitted event trace. -/
def VirtualKeyAction_run (mapVirtualKeyW : Nat → Nat) (key : Nat)
    (down up : Bool) (extraInfo : Nat) : List GEv :=
  ((GetInput (VirtualKeyAction_get_key_info mapVirtualKeyW key) down up
      extraInfo).map (fun inp => Press inp.wVk)).flatten

/-- `EscapedKeyAction.run` (lines 2384-2389): same loop over `Press` with
the escaped key's resolved virtual-key code. -/
def EscapedKeyAction_run (mapVirtualKeyW : Nat → Nat)
    (vkKeyScanW : Char → Nat) (key : Char) (down up : Bool)
    (extraInfo : Nat) : List GEv :=
  ((GetInput (EscapedKeyAction_get_key_info mapVirtualKeyW vkKeyScanW key)
      down up extraInfo).map (fun inp => Press inp.wVk)).flatten

/-! ### The scheduler's logarithmic split -/

/-- The inner generator of `log_split` (lines 1566-1569): chunk number `n`
(0-based) takes one element from the iterator plus up to `n` more, i.e. the
first `n + 1` of the remaining elements. -/
def logSplitGo {α : Type} : Nat → List α → List (List α)
  | _, [] => []
  | n, x :: xs => ((x :: xs).take (n + 1)) :: logSplitGo (n + 1) ((x :: xs).drop (n + 1))
termination_by _ l => l.length
decreasing_by
  simp_wf
  omega

/-- `log_split` (lines 1554-1576) applied to a single iterable (the only
form the scheduler uses; the multi-iterable form zips first). -/
def log_split {α : Type} (l : List α) : List (List α) :=
  logSplitGo 0 l

/-! ### The targeted injection path

`send_keystrokes` (lines 3022-3156).  The keyboard-state snapshots
(`PBYTE256`) are byte lists; the snapshot stack is kept with its **top** at
the head (Python's `keyboard_state_stack[-1]`), so Python's `stack[0]`
(the base) is the last element.  OS interactions are recorded in an event
trace; `PostMessage` failures are injected by an oracle mapping the index
of the call (0-based, in call order) to whether it raises. -/

/-- A `PBYTE256` keyboard-state snapshot: a byte list (256 entries in the
real structure; the embedding does not fix the length). -/
abbrev KState : Type := List Nat

/-- `new_keyboard_state[vk] |= 128` (lines 3105, 3107). -/
def bitOr128 (ks : KState) (i : Nat) : KState :=
  ks.set i (ks.getD i 0 ||| 128)

/-- Events recorded by the targeted injection path, in program order. -/
inductive Ev where
  | sendMessageA
  | sendMessageU
  | enableWindow
  | forceActivate
  | attachCall (fAttach : Bool)
  | warn (msg : String)
  | getKeyboardStateEv
  | setKeyboardState (ks : KState)
  | postMessage (msg vk lparam : Nat)
  | sleepEv (centis : Nat)
  | printFehler
  | deactivateTopmost
  deriving DecidableEq, Repr

/-- The loop state of `send_keystrokes`: the snapshot stack (head = top),
the `context_code` flag, the number of `PostMessage` calls attempted so far
(feeding the fault oracle), and the event trace so far. -/
structure SKState where
  stack : List KState
  contextCode : Nat
  postCount : Nat
  trace : List Ev
  deriving DecidableEq, Repr

/-- The relevant keyboard-layout OS functions, abstracted:
`MapVirtualKeyW(vk, 0)`, `VkKeyScanW(char)` and
`VkKeyScanExW(char, input_locale_id)` (the locale argument is fixed by
`GetKeyboardLayout(0)` and folded into the function). -/
structure Layout where
  mapVirtualKeyW : Nat → Nat
  vkKeyScanW : Char → Nat
  vkKeyScanExW : Char → Nat

/-- `key.get_key_info()` as called at line 3085, dispatching on the action's
class.  A `PauseAction` has no `.key` attribute, so the inherited
`_get_key_info` raises `AttributeError`. -/
def sk_get_key_info (L : Layout) : KAction → Except PErr (Nat × Nat × Nat)
  | .keyAction c _ _ => .ok (KeyAction_get_key_info c)
  | .virtualKey k _ _ => .ok (VirtualKeyAction_get_key_info L.mapVirtualKeyW k)
  | .escapedKey c _ _ =>
    .ok (EscapedKeyAction_get_key_info L.mapVirtualKeyW L.vkKeyScanW c)
  | .pause _ => .error .attributeError

/-- The key-down block (lines 3102-3124): push a copy of the top snapshot
with the key's bit (and, on a shift requirement, the shift bit) set,
compute `lparam`, apply the new snapshot, post the down message, raise the
system-context flag for ALT, sleep.  Indexing the empty stack raises
`IndexError`; a `PostMessage` fault raises at the posting point. -/
def downStep (oracle : Nat → Bool) (vk scan flags shiftState downMsg : Nat)
    (st : SKState) : Except (PErr × SKState) SKState :=
  match st.stack with
  | [] => .error (.indexError, st)
  | top :: _ =>
    let ns0 := bitOr128 top vk
    let ns := if shiftState &&& 1 = 1 then bitOr128 ns0 VK_SHIFT else ns0
    let lparam := 1 ||| (scan <<< 16) ||| ((flags &&& 1) <<< 24)
        ||| (st.contextCode <<< 29) ||| (0 <<< 31)
    let st1 : SKState :=
      { st with stack := ns :: st.stack,
                trace := st.trace ++ [.setKeyboardState ns] }
    if oracle st1.postCount then
      .error (.osError, { st1 with postCount := st1.postCount + 1 })
    else
      let st2 : SKState :=
        { st1 with trace := st1.trace ++ [.postMessage downMsg vk lparam],
                   postCount := st1.postCount + 1 }
      let st3 : SKState := if vk = VK_MENU then { st2 with contextCode := 1 } else st2
      .ok { st3 with trace := st3.trace ++ [.sleepEv 1] }

/-- The key-up block (lines 3126-3145): pop the stack, compute `lparam`
with the transition bits, post the up message, reapply the now-top
snapshot, clear the system-context flag for ALT, sleep.  `pop()` on an
empty stack and `stack[-1]` after popping the last entry both raise
`IndexError`. -/
def upStep (oracle : Nat → Bool) (vk scan flags upMsg : Nat)
    (st : SKState) : Except (PErr × SKState) SKState :=
  match st.stack with
  | [] => .error (.indexError, st)
  | _ :: rest =>
    let st1 : SKState := { st with stack := rest }
    let lparam := 1 ||| (scan <<< 16) ||| ((flags &&& 1) <<< 24)
        ||| (st1.contextCode <<< 29) ||| (1 <<< 30) ||| (1 <<< 31)
    if oracle st1.postCount then
      .error (.osError, { st1 with postCount := st1.postCount + 1 })
    else
      let st2 : SKState :=
        { st1 with trace := st1.trace ++ [.postMessage upMsg vk lparam],
                   postCount := st1.postCount + 1 }
      match st2.stack with
      | [] => .error (.indexError, st2)
      | top :: _ =>
        let st3 : SKState := { st2 with trace := st2.trace ++ [.setKeyboardState top] }
        let st4 : SKState := if vk = VK_MENU then { st3 with contextCode := 0 } else st3
        .ok { st4 with trace := st4.trace ++ [.sleepEv 1] }

/-- The guarded composition of the down block (lines 3102-3124) and the up
block (lines 3126-3145): each runs only when the action requests it and the
resolved virtual-key code is strictly positive. -/
def stepBlocks (oracle : Nat → Bool) (vk scan flags shiftState downMsg upMsg : Nat)
    (kd ku : Bool) (st : SKState) : Except (PErr × SKState) SKState :=
  match (if kd = true ∧ 0 < vk then
      downStep oracle vk scan flags shiftState downMsg st else .ok st) with
  | .error es => .error es
  | .ok st1 =>
    if ku = true ∧ 0 < vk then upStep oracle vk scan flags upMsg st1
    else .ok st1

/-- The Unicode-literal translation (lines 3094-3100): when the resolved
flags carry `KEYEVENTF_UNICODE`, look the character up in the layout to get
`(virtual key, scan code, shift state)`; otherwise keep the original codes
with no shift state. -/
def translateTriple (L : Layout) (vk0 scan0 flags : Nat) : Nat × Nat × Nat :=
  if flags &&& KEYEVENTF_UNICODE ≠ 0 then
    let w := L.vkKeyScanExW (Char.ofNat scan0)
    (w &&& 0xFF, L.mapVirtualKeyW (w &&& 0xFF), (w &&& 0xFF00) >>> 8)
  else (vk0, scan0, 0)

/-- The message-class choice (lines 3087-3090), made from the
**pre-translation** virtual key and the current system-context flag. -/
def msgPair (vk0 contextCode : Nat) : Nat × Nat :=
  if vk0 = VK_MENU ∨ contextCode = 1 then (WM_SYSKEYDOWN, WM_SYSKEYUP)
  else (WM_KEYDOWN, WM_KEYUP)

/-- One iteration of the `for key in keys` loop (lines 3084-3145): resolve
the key info, choose the message pair, translate Unicode literals through
the layout, then run the down and up blocks. -/
def stepKey (L : Layout) (oracle : Nat → Bool) (st : SKState) (key : KAction) :
    Except (PErr × SKState) SKState :=
  match sk_get_key_info L key with
  | .error e => .error (e, st)
  | .ok (vk0, scan0, flags) =>
    stepBlocks oracle (translateTriple L vk0 scan0 flags).1
      (translateTriple L vk0 scan0 flags).2.1 flags
      (translateTriple L vk0 scan0 flags).2.2
      (msgPair vk0 st.contextCode).1 (msgPair vk0 st.contextCode).2
      key.downF key.upF st

/-- The resolved (post-translation) virtual-key code a key will use inside
the loop, or `none` when `get_key_info` raises.  Mirrors lines 3085 and
3094-3100. -/
def resolvedVk (L : Layout) (key : KAction) : Option Nat :=
  match sk_get_key_info L key with
  | .error _ => none
  | .ok (vk0, scan0, flags) => some (translateTriple L vk0 scan0 flags).1

/-- The `for key in keys` loop itself; an exception carries the state at
the raise point to the `except` handler. -/
def runKeys (L : Layout) (oracle : Nat → Bool) :
    List KAction → SKState → Except (PErr × SKState) SKState
  | [], st => .ok st
  | k :: ks, st =>
    match stepKey L oracle st k with
    | .ok st1 => runKeys L oracle ks st1
    | .error es => .error es

/-- Trace prefix before parsing: the optional pre-activation cycle (lines
3052-3056), the `AttachThreadInput` attempt with its warning on failure
(lines 3058-3066), and the base-snapshot capture (lines 3068-3069). -/
def preTraceBase (attachSuccess activateBefore : Bool) : List Ev :=
  (if activateBefore then [.sendMessageA, .sendMessageU, .enableWindow, .forceActivate]
   else [])
  ++ [.attachCall true]
  ++ (if attachSuccess then []
      else [.warn ("Failed to attach app thread to the current thread message queue")])
  ++ [.getKeyboardStateEv]

/-- The `key_combos_present` warning (lines 3075-3081). -/
def combosWarn (keys : List KAction) : List Ev :=
  if keys.any KAction.isEscapedB then
    [.warn ("Key combinations may or may not work depending on the target app")]
  else []

/-- The loop's initial state: stack holding only the base snapshot, context
flag clear, no posts yet, the pre-loop trace. -/
def initState (attachSuccess activateBefore : Bool) (base : KState)
    (keys : List KAction) : SKState :=
  ⟨[base], 0, 0, preTraceBase attachSuccess activateBefore ++ combosWarn keys⟩

/-- Trace suffix after the `try`/`except` (lines 3151-3156): detach the
thread input queues when attachment succeeded, then the sleep and topmost
deactivation when pre-activation ran. -/
def postTrace (attachSuccess activateBefore : Bool) : List Ev :=
  (if attachSuccess then [.attachCall false] else [])
  ++ (if activateBefore then [.sleepEv 10, .deactivateTopmost] else [])

/-- `send_keystrokes` from the already-parsed action list: run the loop; on
an exception print the diagnostic and restore `keyboard_state_stack[0]`
(the base = last element of our stack) — itself an uncaught `IndexError`
when the stack is empty, in which case the detach and deactivation never
run — then detach/deactivate and return.  The result carries the full
event trace; an `error` result is an exception escaping the whole call. -/
def sendKeystrokesFromKeys (L : Layout) (oracle : Nat → Bool)
    (attachSuccess activateBefore : Bool) (base : KState)
    (keys : List KAction) : Except (PErr × List Ev) (List Ev) :=
  match runKeys L oracle keys (initState attachSuccess activateBefore base keys) with
  | .ok st => .ok (st.trace ++ postTrace attachSuccess activateBefore)
  | .error (_, st) =>
    match st.stack.getLast? with
    | some b =>
      .ok (st.trace ++ [.printFehler, .setKeyboardState b]
        ++ postTrace attachSuccess activateBefore)
    | none => .error (.indexError, st.trace ++ [.printFehler])

/-- `send_keystrokes(handle, keystrokes, with_spaces, with_tabs,
with_newlines, activate_window_before)` (lines 3022-3156): note the parse
happens after attaching (line 3074), so a syntax error escapes before the
`try` and skips the detach as well. -/
def send_keystrokes (L : Layout) (oracle : Nat → Bool)
    (attachSuccess : Bool) (base : KState) (keystrokes : String)
    (withSpaces withTabs withNewlines activateBefore : Bool) :
    Except (PErr × List Ev) (List Ev) :=
  match parse_keys keystrokes withSpaces withTabs withNewlines true with
  | .error e => .error (e, preTraceBase attachSuccess activateBefore)
  | .ok keys => sendKeystrokesFromKeys L oracle attachSuccess activateBefore base keys

/-- Extract the trace from either outcome of `send_keystrokes`. -/
def traceOfR : Except (PErr × List Ev) (List Ev) → List Ev
  | .ok t => t
  | .error (_, t) => t

/-- Whether an `Except` outcome is a normal return. -/
def isOkE {ε α : Type} : Except ε α → Bool
  | .ok _ => true
  | .error _ => false

/-- Projection of the escaping exception of a `send_keystrokes` outcome. -/
def errOf : Except (PErr × List Ev) (List Ev) → Option PErr
  | .ok _ => none
  | .error (e, _) => some e

/-- The state at which a loop outcome left off (the raise point for an
exception). -/
def stOf : Except (PErr × SKState) SKState → SKState
  | .ok s => s
  | .error (_, s) => s

/-! ### Concrete fixtures for witnesses and counterexamples -/

/-- A concrete keyboard layout: `MapVirtualKeyW` returns 0,
`VkKeyScanW`/`VkKeyScanExW` return the character's code point (so `'a'`
resolves to 97 with no shift state). -/
def testLayout : Layout := ⟨fun _ => 0, fun c => c.toNat, fun c => c.toNat⟩

/-- Oracle under which no `PostMessage` call fails. -/
def noFault : Nat → Bool := fun _ => false

/-- Oracle under which the first `PostMessage` call raises. -/
def failFirstPost : Nat → Bool := fun i => i == 0

/-- An all-zero 256-byte base snapshot. -/
def base0 : KState := List.replicate 256 0

/-- The bottom of the snapshot stack (Python's `keyboard_state_stack[0]`)
is the base snapshot, whenever the stack is nonempty. -/
def baseInv (base : KState) (st : SKState) : Prop :=
  st.stack ≠ [] → st.stack.getLast? = some base

/-- No `PostMessage` event in the trace carries a zero virtual-key code. -/
def PPv (tr : List Ev) : Prop :=
  ∀ m v l, Ev.postMessage m v l ∈ tr → 0 < v

/-- Whether the key's resolved virtual-key code is strictly positive (so
the down/up blocks will actually run for it). -/
def vkPosB (L : Layout) (k : KAction) : Bool :=
  match resolvedVk L k with
  | some v => v != 0
  | none => false

/-! ### Claim C1 -/

/-- C1 (the claim fails on the code; this theorem evaluates the compiler at
the failing input): compiling `"(+ab)"` does **not** hold SHIFT across both
characters.  The release loop at the bottom of the parser's character loop
(lines 2565-2569) drains the shared modifier list right after the first
character inside the group, so the produced sequence is SHIFT-down,
escaped `a`, SHIFT-up, and then `b` as an unmodified Unicode literal — the
SHIFT release is emitted after `a`, not once after `b`, contradicting the
group comment at line 2486 and the spec. -/
theorem c1_group_modifier_scope :
    parse_keys "(+ab)" false false false true =
      .ok [KAction.virtualKey 16 true false, KAction.escapedKey 'a' true true,
           KAction.virtualKey 16 false true, KAction.keyAction 'b' true true] := by
  decide

/-! ### Claim C5 -/

/-- C5: compiling `"{DOWN 3}"` with default options yields exactly three
`VirtualKeyAction`s for the DOWN-arrow code 40, each with both `down` and
`up` true, and nothing else. -/
theorem c5_down_three :
    parse_keys "{DOWN 3}" false false false true =
      .ok [KAction.virtualKey 40 true true, KAction.virtualKey 40 true true,
           KAction.virtualKey 40 true true] := by
  decide

/-! ### Claim C10 -/

/-- C10: every braced token that is not in the named-key table, is longer
than one character and contains no space makes `handle_code` raise a plain
`RuntimeError` ("Unknown code: ...") — not the parser's `KeySequenceError`
type (lines 2448-2449). -/
theorem c10_unknown_code_runtime_error (fuel : Nat) (code : List Char)
    (vkPacket : Bool) (h1 : List.lookup (String.mk code) CODES = none)
    (h2 : 1 < code.length) (h3 : code.contains ' ' = false) :
    handle_code fuel code vkPacket =
      .error (.runtimeError ("Unknown code: " ++ String.mk code)) := by
  have hlen : ¬ code.length = 1 := by omega
  have h3m : ' ' ∉ code := by simpa using h3
  simp [handle_code, handleCodeF, h1, hlen, h3m]

/-- Witness for C10 at the token `FOO`. -/
theorem c10_witness :
    handle_code 0 ("FOO".data) true =
      .error (.runtimeError ("Unknown code: " ++ String.mk ("FOO".data))) :=
  c10_unknown_code_runtime_error 0 ("FOO".data) true (by decide) (by decide) (by decide)

/-! ### Claim C4 -/

/-- C4 counterexample: an action requesting both transitions builds two
input events; when the OS reports one event accepted — nonzero, so the
claim says the call completes without raising — `KeyAction.run` still
raises, because line 2286 compares against the requested count, not
against zero. -/
theorem c4_counterexample :
    (GetInput (KeyAction_get_key_info 'a') true true 0).length = 2 ∧
    isOkE (KeyAction_run 'a' true true 0 1) = false := by
  decide

/-- C4 as amended: `KeyAction.run` completes without raising exactly when
the OS-reported count equals the number of requested events (two when both
`down` and `up`, one otherwise); any other count — including a nonzero
partial count — raises. -/
theorem c4_amended (key : Char) (down up : Bool)
    (extraInfo numInsertedEvents : Nat) :
    (KeyAction_run key down up extraInfo numInsertedEvents = .ok () ↔
      numInsertedEvents =
        (GetInput (KeyAction_get_key_info key) down up extraInfo).length) ∧
    (GetInput (KeyAction_get_key_info key) down up extraInfo).length =
      (if up && down then 2 else 1) := by
  constructor
  · by_cases h : numInsertedEvents =
        (GetInput (KeyAction_get_key_info key) down up extraInfo).length
    · simp [KeyAction_run, h]
    · simp [KeyAction_run, h]
  · cases up <;> cases down <;> simp [GetInput]

/-! ### Claim C8 -/

/-- C8: `VirtualKeyAction.run` and `EscapedKeyAction.run` call the full
press-and-release helper `Press` once per entry of `GetInput`: two complete
press-and-release cycles when both `down` and `up` are requested, one
complete cycle otherwise — the emitted trace is always a concatenation of
whole `Press` cycles, never a lone half transition. -/
theorem c8_press_full_cycles (mapVirtualKeyW : Nat → Nat)
    (vkKeyScanW : Char → Nat) (key : Nat) (ch : Char) (down up : Bool)
    (extraInfo : Nat) :
    VirtualKeyAction_run mapVirtualKeyW key down up extraInfo =
      (List.replicate (if up && down then 2 else 1) (Press key)).flatten ∧
    EscapedKeyAction_run mapVirtualKeyW vkKeyScanW ch down up extraInfo =
      (List.replicate (if up && down then 2 else 1)
        (Press (LoByte (vkKeyScanW ch)))).flatten := by
  cases up <;> cases down <;>
    simp [VirtualKeyAction_run, EscapedKeyAction_run, GetInput,
      VirtualKeyAction_get_key_info, EscapedKeyAction_get_key_info, Press]

/-! ### Claim C9 -/

set_option maxRecDepth 40000 in
/-- C9: for the compiled form of `"{UP up}"` (a single up-only action), the
up block pops the base entry (line 3127) and the immediately following
`keyboard_state_stack[-1]` access (line 3139) raises `IndexError` on the
now-empty stack; the recovery handler's `keyboard_state_stack[0]` (line
3149) raises again, so `send_keystrokes` terminates with an uncaught
`IndexError` and — although attachment succeeded (the attach call is in the
trace) — neither the detach call nor the topmost deactivation are ever
reached. -/
theorem c9_up_only_underflow_uncaught :
    errOf (send_keystrokes testLayout noFault true base0 "{UP up}"
        true true true true) = some PErr.indexError ∧
    (traceOfR (send_keystrokes testLayout noFault true base0 "{UP up}"
        true true true true)).contains (Ev.attachCall true) = true ∧
    (traceOfR (send_keystrokes testLayout noFault true base0 "{UP up}"
        true true true true)).all
      (fun e => !(e == Ev.attachCall false) && !(e == Ev.deactivateTopmost)) = true := by
  decide

/-! ### Claim C2, counterexample -/

set_option maxRecDepth 40000 in
/-- C2 counterexample: with an oracle making the first `PostMessage` raise,
the down/up loop ends in an exception, yet `send_keystrokes` returns
normally — the bare `except` at line 3147 only prints and restores, it
never re-raises, so the original error is swallowed rather than rethrown. -/
theorem c2_counterexample :
    isOkE (runKeys testLayout failFirstPost [KAction.virtualKey 65 true true]
        (initState true true base0 [KAction.virtualKey 65 true true])) = false ∧
    isOkE (sendKeystrokesFromKeys testLayout failFirstPost true true base0
        [KAction.virtualKey 65 true true]) = true := by
  decide

/-! ### Claim C7: lemmas about the logarithmic split -/

theorem logSplitGo_nil {α : Type} (n : Nat) : logSplitGo n ([] : List α) = [] := by
  rw [logSplitGo]

theorem logSplitGo_cons {α : Type} (n : Nat) (x : α) (xs : List α) :
    logSplitGo n (x :: xs) =
      ((x :: xs).take (n + 1)) :: logSplitGo (n + 1) ((x :: xs).drop (n + 1)) := by
  rw [logSplitGo]

/-- Concatenating the chunks recovers the input, for any starting chunk
number. -/
theorem logSplitGo_flatten_aux {α : Type} :
    ∀ (len n : Nat) (l : List α), l.length ≤ len → (logSplitGo n l).flatten = l := by
  intro len
  induction len with
  | zero =>
    intro n l h
    have hl : l = [] := List.eq_nil_of_length_eq_zero (Nat.le_zero.mp h)
    subst hl
    simp [logSplitGo_nil]
  | succ m ih =>
    intro n l h
    cases l with
    | nil => simp [logSplitGo_nil]
    | cons x xs =>
      have h' : xs.length ≤ m := by simpa using h
      rw [logSplitGo_cons, List.flatten_cons,
        ih (n + 1) ((x :: xs).drop (n + 1)) (by simp; omega)]
      exact List.take_append_drop _ _

/-- Every chunk except possibly the last has exactly `n + i + 1` elements
when splitting from chunk number `n`. -/
theorem logSplitGo_getD_len {α : Type} :
    ∀ (len n i : Nat) (l : List α), l.length ≤ len →
      i + 1 < (logSplitGo n l).length →
      ((logSplitGo n l).getD i []).length = n + i + 1 := by
  intro len
  induction len with
  | zero =>
    intro n i l h hi
    have hl : l = [] := List.eq_nil_of_length_eq_zero (Nat.le_zero.mp h)
    subst hl
    simp [logSplitGo_nil] at hi
  | succ m ih =>
    intro n i l h hi
    cases l with
    | nil => simp [logSplitGo_nil] at hi
    | cons x xs =>
      have h' : xs.length ≤ m := by simpa using h
      rw [logSplitGo_cons] at hi ⊢
      cases i with
      | zero =>
        have hne : logSplitGo (n + 1) ((x :: xs).drop (n + 1)) ≠ [] := by
          intro hnil
          rw [hnil] at hi
          simp at hi
        have hd : (x :: xs).drop (n + 1) ≠ [] := by
          intro hnil
          exact hne (by rw [hnil, logSplitGo_nil])
        have hlen : n + 1 < (x :: xs).length := by
          by_contra hc
          exact hd (List.drop_eq_nil_of_le (by omega))
        simp only [List.getD_cons_zero, List.length_take, List.length_cons]
        simp only [List.length_cons] at hlen
        omega
      | succ j =>
        have hj : j + 1 < (logSplitGo (n + 1) ((x :: xs).drop (n + 1))).length := by
          simpa using hi
        have hrec := ih (n + 1) j ((x :: xs).drop (n + 1)) (by simp; omega) hj
        simp only [List.getD_cons_succ]
        rw [hrec]
        omega

/-- Every chunk is nonempty and no larger than `n + i + 1`. -/
theorem logSplitGo_getD_bounds {α : Type} :
    ∀ (len n i : Nat) (l : List α), l.length ≤ len →
      i < (logSplitGo n l).length →
      0 < ((logSplitGo n l).getD i []).length ∧
        ((logSplitGo n l).getD i []).length ≤ n + i + 1 := by
  intro len
  induction len with
  | zero =>
    intro n i l h hi
    have hl : l = [] := List.eq_nil_of_length_eq_zero (Nat.le_zero.mp h)
    subst hl
    simp [logSplitGo_nil] at hi
  | succ m ih =>
    intro n i l h hi
    cases l with
    | nil => simp [logSplitGo_nil] at hi
    | cons x xs =>
      have h' : xs.length ≤ m := by simpa using h
      rw [logSplitGo_cons] at hi ⊢
      cases i with
      | zero =>
        simp only [List.getD_cons_zero, List.length_take, List.length_cons]
        constructor
        · simp
        · simp
      | succ j =>
        have hj : j < (logSplitGo (n + 1) ((x :: xs).drop (n + 1))).length := by
          simpa using hi
        have hrec := ih (n + 1) j ((x :: xs).drop (n + 1)) (by simp; omega) hj
        simp only [List.getD_cons_succ]
        exact ⟨hrec.1, by omega⟩

/-- C7: for every finite list, `log_split` yields consecutive chunks whose
in-order concatenation equals the input, where the `i`-th chunk (0-based)
has length `i + 1` whenever it is not the final chunk, and every chunk —
including the final one, which holds the remaining elements — is nonempty
and no longer than `i + 1`. -/
theorem c7_log_split {α : Type} (l : List α) :
    (log_split l).flatten = l ∧
    (∀ i, i + 1 < (log_split l).length →
      ((log_split l).getD i []).length = i + 1) ∧
    (∀ i, i < (log_split l).length →
      0 < ((log_split l).getD i []).length ∧
        ((log_split l).getD i []).length ≤ i + 1) :=
  ⟨logSplitGo_flatten_aux l.length 0 l le_rfl,
   fun i hi => by
     simpa [log_split] using
       logSplitGo_getD_len l.length 0 i l le_rfl (by simpa [log_split] using hi),
   fun i hi => by
     simpa [log_split] using
       logSplitGo_getD_bounds l.length 0 i l le_rfl (by simpa [log_split] using hi)⟩

/-- Witness for C7 on the list `[1, 2, 3, 4]` (chunks `[1]`, `[2, 3]`,
`[4]`). -/
theorem c7_witness :
    (log_split [1, 2, 3, 4]).flatten = [1, 2, 3, 4] ∧
    ((log_split [1, 2, 3, 4]).getD 0 []).length = 0 + 1 :=
  ⟨(c7_log_split [1, 2, 3, 4]).1,
   (c7_log_split [1, 2, 3, 4]).2.1 0 (by
     simp [log_split, logSplitGo_cons, logSplitGo_nil])⟩

/-! ### Targeted-path lemmas: stack shape, base invariant, trace growth -/

theorem getLast?_cons_ne {α : Type} (a : α) (l : List α) (h : l ≠ []) :
    (a :: l).getLast? = l.getLast? := by
  cases l with
  | nil => exact absurd rfl h
  | cons b t => exact List.getLast?_cons_cons

theorem baseInv_push {base : KState} {st st1 : SKState} {ns : KState}
    (h : baseInv base st) (hne : st.stack ≠ [])
    (hstk : st1.stack = ns :: st.stack) : baseInv base st1 := by
  intro _
  rw [hstk, getLast?_cons_ne _ _ hne]
  exact h hne

theorem baseInv_pop {base : KState} {st st1 : SKState}
    (h : baseInv base st) (hstk : st1.stack = st.stack.tail) :
    baseInv base st1 := by
  intro hne1
  rw [hstk] at hne1 ⊢
  cases hstk2 : st.stack with
  | nil => rw [hstk2] at hne1; simp at hne1
  | cons x t =>
    rw [hstk2] at hne1
    simp only [List.tail_cons] at hne1 ⊢
    rw [← getLast?_cons_ne x t hne1]
    have hh := h (by rw [hstk2]; simp)
    rw [hstk2] at hh
    exact hh

/-- A successful down block pushes exactly one new snapshot. -/
theorem downStep_ok_stack {oracle : Nat → Bool} {vk scan flags ss dm : Nat}
    {st st1 : SKState} (h : downStep oracle vk scan flags ss dm st = .ok st1) :
    ∃ ns, st1.stack = ns :: st.stack := by
  unfold downStep at h
  split at h
  · simp at h
  · repeat' split at h
    all_goals
      by_cases ho : oracle st.postCount = true
      · rw [if_pos ho] at h; exact absurd h (by simp)
      · rw [if_neg ho] at h
        injection h with h1
        exact ⟨_, by rw [← h1]⟩

/-- A successful up block pops exactly one snapshot, and both the popped
stack and its remainder are nonempty. -/
theorem upStep_ok_stack {oracle : Nat → Bool} {vk scan flags um : Nat}
    {st st1 : SKState} (h : upStep oracle vk scan flags um st = .ok st1) :
    ∃ x rtl, st.stack = x :: rtl ∧ rtl ≠ [] ∧ st1.stack = rtl := by
  unfold upStep at h
  split at h
  · simp at h
  · rename_i x rtl hstk
    dsimp only at h
    by_cases ho : oracle st.postCount = true
    · rw [if_pos ho] at h; exact absurd h (by simp)
    · rw [if_neg ho] at h
      split at h
      · simp at h
      · by_cases hm : vk = VK_MENU
        · rw [if_pos hm] at h
          injection h with h1
          exact ⟨_, _, hstk, by simp, by rw [← h1]⟩
        · rw [if_neg hm] at h
          injection h with h1
          exact ⟨_, _, hstk, by simp, by rw [← h1]⟩

/-- Every outcome of the down block leaves the stack unchanged or pushes
one snapshot onto a nonempty stack. -/
theorem downStep_stack_cases (oracle : Nat → Bool) (vk scan flags ss dm : Nat)
    (st : SKState) :
    (stOf (downStep oracle vk scan flags ss dm st)).stack = st.stack ∨
    (st.stack ≠ [] ∧
      ∃ ns, (stOf (downStep oracle vk scan flags ss dm st)).stack = ns :: st.stack) := by
  unfold downStep
  split
  · left; rfl
  · rename_i top rest hstk
    have hne : st.stack ≠ [] := by rw [hstk]; simp
    dsimp only
    right
    refine ⟨hne, ?_⟩
    by_cases ho : oracle st.postCount = true
    · rw [if_pos ho]; exact ⟨_, rfl⟩
    · rw [if_neg ho]
      by_cases hm : vk = VK_MENU
      · rw [if_pos hm]; exact ⟨_, rfl⟩
      · rw [if_neg hm]; exact ⟨_, rfl⟩

/-- Every outcome of the up block leaves the stack unchanged or replaces it
by its tail. -/
theorem upStep_stack_cases (oracle : Nat → Bool) (vk scan flags um : Nat)
    (st : SKState) :
    (stOf (upStep oracle vk scan flags um st)).stack = st.stack ∨
    (stOf (upStep oracle vk scan flags um st)).stack = st.stack.tail := by
  unfold upStep
  split
  · left; rfl
  · rename_i x rtl hstk
    have htl : st.stack.tail = rtl := by rw [hstk]; rfl
    dsimp only
    right
    by_cases ho : oracle st.postCount = true
    · rw [if_pos ho, htl]; rfl
    · rw [if_neg ho]
      split
      · rw [htl]; rfl
      · by_cases hm : vk = VK_MENU
        · rw [if_pos hm, htl]; rfl
        · rw [if_neg hm, htl]; rfl

theorem downStep_baseInv {base : KState} (oracle : Nat → Bool)
    (vk scan flags ss dm : Nat) {st : SKState} (h : baseInv base st) :
    baseInv base (stOf (downStep oracle vk scan flags ss dm st)) := by
  rcases downStep_stack_cases oracle vk scan flags ss dm st with hc | ⟨hne, ns, hc⟩
  · intro hne2
    rw [hc] at hne2 ⊢
    exact h hne2
  · exact baseInv_push h hne hc

theorem upStep_baseInv {base : KState} (oracle : Nat → Bool)
    (vk scan flags um : Nat) {st : SKState} (h : baseInv base st) :
    baseInv base (stOf (upStep oracle vk scan flags um st)) := by
  rcases upStep_stack_cases oracle vk scan flags um st with hc | hc
  · intro hne2
    rw [hc] at hne2 ⊢
    exact h hne2
  · exact baseInv_pop h hc

theorem stepBlocks_baseInv {base : KState} (oracle : Nat → Bool)
    (vk scan flags shiftState downMsg upMsg : Nat) (kd ku : Bool)
    {st : SKState} (h : baseInv base st) :
    baseInv base (stOf (stepBlocks oracle vk scan flags shiftState downMsg
      upMsg kd ku st)) := by
  unfold stepBlocks
  split
  · rename_i es heq
    split at heq
    · have hb := downStep_baseInv oracle vk scan flags
        shiftState downMsg h
      rw [heq] at hb
      exact hb
    · simp at heq
  · rename_i st1 heq
    have hb1 : baseInv base st1 := by
      split at heq
      · have hb := downStep_baseInv oracle vk scan flags
          shiftState downMsg h
        rw [heq] at hb
        exact hb
      · injection heq with heq1
        rw [← heq1]
        exact h
    split
    · exact upStep_baseInv oracle vk scan flags upMsg hb1
    · exact hb1

theorem stepKey_baseInv {base : KState} (L : Layout) (oracle : Nat → Bool)
    {st : SKState} (k : KAction) (h : baseInv base st) :
    baseInv base (stOf (stepKey L oracle st k)) := by
  unfold stepKey
  cases hinfo : sk_get_key_info L k with
  | error e => exact h
  | ok info =>
    obtain ⟨vk0, scan0, flags⟩ := info
    exact stepBlocks_baseInv oracle _ _ _ _ _ _ _ _ h

theorem runKeys_baseInv {base : KState} (L : Layout) (oracle : Nat → Bool) :
    ∀ (ks : List KAction) (st : SKState), baseInv base st →
      baseInv base (stOf (runKeys L oracle ks st)) := by
  intro ks
  induction ks with
  | nil => intro st h; exact h
  | cons k ks ih =>
    intro st h
    unfold runKeys
    cases hs : stepKey L oracle st k with
    | ok st1 =>
      have hb := stepKey_baseInv L oracle k h
      rw [hs] at hb
      exact ih st1 hb
    | error es =>
      have hb := stepKey_baseInv L oracle k h
      rw [hs] at hb
      exact hb

theorem PPv_nil : PPv [] := by
  intro m v l hm
  simp at hm

theorem PPv_append {a b : List Ev} (ha : PPv a) (hb : PPv b) : PPv (a ++ b) := by
  intro m v l hm
  rcases List.mem_append.mp hm with h | h
  · exact ha _ _ _ h
  · exact hb _ _ _ h

theorem downStep_PPv (oracle : Nat → Bool) (vk scan flags ss dm : Nat)
    {st : SKState} (hvk : 0 < vk) (h : PPv st.trace) :
    PPv ((stOf (downStep oracle vk scan flags ss dm st)).trace) := by
  unfold downStep
  split
  · exact h
  · dsimp only
    by_cases ho : oracle st.postCount = true
    · rw [if_pos ho]
      refine PPv_append h ?_
      intro m v l hm
      simp at hm
    · rw [if_neg ho]
      by_cases hm2 : vk = VK_MENU
      · rw [if_pos hm2]
        refine PPv_append (PPv_append (PPv_append h ?_) ?_) ?_ <;>
          (intro m v l hm; simp at hm) <;> omega
      · rw [if_neg hm2]
        refine PPv_append (PPv_append (PPv_append h ?_) ?_) ?_ <;>
          (intro m v l hm; simp at hm) <;> omega

theorem upStep_PPv (oracle : Nat → Bool) (vk scan flags um : Nat)
    {st : SKState} (hvk : 0 < vk) (h : PPv st.trace) :
    PPv ((stOf (upStep oracle vk scan flags um st)).trace) := by
  unfold upStep
  split
  · exact h
  · dsimp only
    by_cases ho : oracle st.postCount = true
    · rw [if_pos ho]
      exact h
    · rw [if_neg ho]
      split
      · refine PPv_append h ?_
        intro m v l hm
        simp at hm
        omega
      · by_cases hm2 : vk = VK_MENU
        · rw [if_pos hm2]
          refine PPv_append (PPv_append (PPv_append h ?_) ?_) ?_ <;>
            (intro m v l hm; simp at hm) <;> omega
        · rw [if_neg hm2]
          refine PPv_append (PPv_append (PPv_append h ?_) ?_) ?_ <;>
            (intro m v l hm; simp at hm) <;> omega

theorem stepBlocks_PPv (oracle : Nat → Bool)
    (vk scan flags shiftState downMsg upMsg : Nat) (kd ku : Bool)
    {st : SKState} (h : PPv st.trace) :
    PPv ((stOf (stepBlocks oracle vk scan flags shiftState downMsg
      upMsg kd ku st)).trace) := by
  unfold stepBlocks
  split
  · rename_i es heq
    split at heq
    · rename_i hc
      have hb := downStep_PPv oracle vk scan flags shiftState downMsg hc.2 h
      rw [heq] at hb
      exact hb
    · simp at heq
  · rename_i st1 heq
    have hb1 : PPv st1.trace := by
      split at heq
      · rename_i hc
        have hb := downStep_PPv oracle vk scan flags shiftState downMsg hc.2 h
        rw [heq] at hb
        exact hb
      · injection heq with heq1
        rw [← heq1]
        exact h
    split
    · rename_i hc
      exact upStep_PPv oracle vk scan flags upMsg hc.2 hb1
    · exact hb1

theorem stepKey_PPv (L : Layout) (oracle : Nat → Bool) {st : SKState}
    (k : KAction) (h : PPv st.trace) :
    PPv ((stOf (stepKey L oracle st k)).trace) := by
  unfold stepKey
  cases hinfo : sk_get_key_info L k with
  | error e => exact h
  | ok info =>
    obtain ⟨vk0, scan0, flags⟩ := info
    exact stepBlocks_PPv oracle _ _ _ _ _ _ _ _ h

theorem runKeys_PPv (L : Layout) (oracle : Nat → Bool) :
    ∀ (ks : List KAction) (st : SKState), PPv st.trace →
      PPv ((stOf (runKeys L oracle ks st)).trace) := by
  intro ks
  induction ks with
  | nil => intro st h; exact h
  | cons k ks ih =>
    intro st h
    unfold runKeys
    cases hs : stepKey L oracle st k with
    | ok st1 =>
      have hb := stepKey_PPv L oracle k h
      rw [hs] at hb
      exact ih st1 hb
    | error es =>
      have hb := stepKey_PPv L oracle k h
      rw [hs] at hb
      exact hb

theorem PPv_preTraceBase (attachSuccess activateBefore : Bool) :
    PPv (preTraceBase attachSuccess activateBefore) := by
  intro m v l hm
  cases attachSuccess <;> cases activateBefore <;> simp [preTraceBase] at hm

theorem PPv_combosWarn (keys : List KAction) : PPv (combosWarn keys) := by
  intro m v l hm
  unfold combosWarn at hm
  split at hm <;> simp at hm

theorem PPv_postTrace (attachSuccess activateBefore : Bool) :
    PPv (postTrace attachSuccess activateBefore) := by
  intro m v l hm
  cases attachSuccess <;> cases activateBefore <;> simp [postTrace] at hm

/-- Unfolding `stepKey` when the key info resolves. -/
theorem stepKey_ok_info (L : Layout) (oracle : Nat → Bool) (st : SKState)
    (k : KAction) (vk0 scan0 flags : Nat)
    (hinfo : sk_get_key_info L k = .ok (vk0, scan0, flags)) :
    stepKey L oracle st k = stepBlocks oracle
      (translateTriple L vk0 scan0 flags).1
      (translateTriple L vk0 scan0 flags).2.1 flags
      (translateTriple L vk0 scan0 flags).2.2
      (msgPair vk0 st.contextCode).1 (msgPair vk0 st.contextCode).2
      k.downF k.upF st := by
  unfold stepKey
  rw [hinfo]

theorem vkPosB_pos {L : Layout} {k : KAction} {vk0 scan0 flags : Nat}
    (hinfo : sk_get_key_info L k = .ok (vk0, scan0, flags))
    (hv : vkPosB L k = true) : 0 < (translateTriple L vk0 scan0 flags).1 := by
  unfold vkPosB resolvedVk at hv
  rw [hinfo] at hv
  simp at hv
  omega

/-- A successful down-only pass through the blocks pushes exactly one
snapshot. -/
theorem stepBlocks_down_only (oracle : Nat → Bool)
    (vk scan flags shiftState downMsg upMsg : Nat) {st st1 : SKState}
    (hvk : 0 < vk)
    (h : stepBlocks oracle vk scan flags shiftState downMsg upMsg true false st
      = .ok st1) :
    ∃ ns, st1.stack = ns :: st.stack := by
  unfold stepBlocks at h
  rw [if_pos ⟨rfl, hvk⟩] at h
  cases hds : downStep oracle vk scan flags shiftState downMsg st with
  | error es => rw [hds] at h; simp at h
  | ok stm =>
    rw [hds] at h
    dsimp only at h
    rw [if_neg (by simp)] at h
    injection h with h1
    rw [← h1]
    exact downStep_ok_stack hds

/-- A successful up-only pass through the blocks pops exactly one snapshot
without emptying the stack. -/
theorem stepBlocks_up_only (oracle : Nat → Bool)
    (vk scan flags shiftState downMsg upMsg : Nat) {st st1 : SKState}
    (hvk : 0 < vk)
    (h : stepBlocks oracle vk scan flags shiftState downMsg upMsg false true st
      = .ok st1) :
    ∃ x rtl, st.stack = x :: rtl ∧ rtl ≠ [] ∧ st1.stack = rtl := by
  unfold stepBlocks at h
  rw [if_neg (by simp)] at h
  dsimp only at h
  rw [if_pos ⟨rfl, hvk⟩] at h
  exact upStep_ok_stack h

/-- A successful loop iteration on a down-only action with positive
resolved code pushes exactly one snapshot. -/
theorem stepKey_down_only (L : Layout) (oracle : Nat → Bool)
    {st st1 : SKState} (k : KAction) (hd : k.downF = true)
    (hu : k.upF = false) (hv : vkPosB L k = true)
    (h : stepKey L oracle st k = .ok st1) :
    ∃ ns, st1.stack = ns :: st.stack := by
  cases hinfo : sk_get_key_info L k with
  | error e =>
    unfold vkPosB resolvedVk at hv
    rw [hinfo] at hv
    simp at hv
  | ok info =>
    obtain ⟨vk0, scan0, flags⟩ := info
    rw [stepKey_ok_info L oracle st k vk0 scan0 flags hinfo, hd, hu] at h
    exact stepBlocks_down_only oracle _ _ _ _ _ _ (vkPosB_pos hinfo hv) h

/-- A successful loop iteration on an up-only action with positive resolved
code pops exactly one snapshot without emptying the stack. -/
theorem stepKey_up_only (L : Layout) (oracle : Nat → Bool)
    {st st1 : SKState} (k : KAction) (hd : k.downF = false)
    (hu : k.upF = true) (hv : vkPosB L k = true)
    (h : stepKey L oracle st k = .ok st1) :
    ∃ x rtl, st.stack = x :: rtl ∧ rtl ≠ [] ∧ st1.stack = rtl := by
  cases hinfo : sk_get_key_info L k with
  | error e =>
    unfold vkPosB resolvedVk at hv
    rw [hinfo] at hv
    simp at hv
  | ok info =>
    obtain ⟨vk0, scan0, flags⟩ := info
    rw [stepKey_ok_info L oracle st k vk0 scan0 flags hinfo, hd, hu] at h
    exact stepBlocks_up_only oracle _ _ _ _ _ _ (vkPosB_pos hinfo hv) h

/-- The loop over a concatenation splits into two successful halves. -/
theorem runKeys_append (L : Layout) (oracle : Nat → Bool) :
    ∀ (a b : List KAction) (st st2 : SKState),
      runKeys L oracle (a ++ b) st = .ok st2 →
      ∃ st1, runKeys L oracle a st = .ok st1 ∧ runKeys L oracle b st1 = .ok st2 := by
  intro a
  induction a with
  | nil =>
    intro b st st2 h
    exact ⟨st, rfl, h⟩
  | cons k ks ih =>
    intro b st st2 h
    rw [List.cons_append] at h
    unfold runKeys at h
    cases hs : stepKey L oracle st k with
    | error es => rw [hs] at h; simp at h
    | ok stm =>
      rw [hs] at h
      obtain ⟨st1, ha, hb⟩ := ih b stm st2 h
      refine ⟨st1, ?_, hb⟩
      unfold runKeys
      rw [hs]
      exact ha

/-- A successful run over down-only actions with positive resolved codes
pushes one snapshot per action. -/
theorem runKeys_downs (L : Layout) (oracle : Nat → Bool) :
    ∀ (downs : List KAction) (st st1 : SKState),
      downs.all (fun k => k.downF && !k.upF && vkPosB L k) = true →
      runKeys L oracle downs st = .ok st1 →
      ∃ pref : List KState, st1.stack = pref ++ st.stack ∧
        pref.length = downs.length := by
  intro downs
  induction downs with
  | nil =>
    intro st st1 _ h
    injection h with h1
    exact ⟨[], by rw [← h1]; simp, rfl⟩
  | cons k ks ih =>
    intro st st1 hall h
    simp only [List.all_cons, Bool.and_eq_true, Bool.not_eq_true'] at hall
    obtain ⟨⟨⟨hd, hu⟩, hv⟩, hrest⟩ := hall
    unfold runKeys at h
    cases hs : stepKey L oracle st k with
    | error es => rw [hs] at h; simp at h
    | ok stm =>
      rw [hs] at h
      obtain ⟨ns, hns⟩ := stepKey_down_only L oracle k hd hu hv hs
      obtain ⟨pref, hp, hl⟩ := ih stm st1 (by
        simpa [List.all_eq_true, Bool.and_eq_true, Bool.not_eq_true'] using hrest) h
      refine ⟨pref ++ [ns], ?_, by simp [hl]⟩
      rw [hp, hns, List.append_cons]

/-- A successful run over up-only actions with positive resolved codes pops
one snapshot per action. -/
theorem runKeys_ups (L : Layout) (oracle : Nat → Bool) :
    ∀ (ups : List KAction) (st st1 : SKState),
      ups.all (fun k => !k.downF && k.upF && vkPosB L k) = true →
      runKeys L oracle ups st = .ok st1 →
      st1.stack = st.stack.drop ups.length := by
  intro ups
  induction ups with
  | nil =>
    intro st st1 _ h
    injection h with h1
    rw [← h1]
    rfl
  | cons k ks ih =>
    intro st st1 hall h
    simp only [List.all_cons, Bool.and_eq_true, Bool.not_eq_true'] at hall
    obtain ⟨⟨⟨hd, hu⟩, hv⟩, hrest⟩ := hall
    unfold runKeys at h
    cases hs : stepKey L oracle st k with
    | error es => rw [hs] at h; simp at h
    | ok stm =>
      rw [hs] at h
      obtain ⟨x, rtl, hx, _, hstm⟩ := stepKey_up_only L oracle k hd hu hv hs
      have hrec := ih stm st1 (by
        simpa [List.all_eq_true, Bool.and_eq_true, Bool.not_eq_true'] using hrest) h
      rw [hrec, hstm, hx]
      rfl

/-! ### Claim C3 -/

/-- C3: starting from any base snapshot, a successful run of the targeted
injection loop over any `N` down-transitions (each pushing a copy of the
top snapshot with the key's bit — and, on a shift requirement, the shift
bit — set) followed by `N` up-transitions (each popping the stack) leaves
the stack exactly `[base]`: its top is byte-for-byte the base snapshot
captured before the first push, for every `N ≥ 0`. -/
theorem c3_stack_balance (L : Layout) (oracle : Nat → Bool) (base : KState)
    (downs ups : List KAction) (cc pc : Nat) (tr : List Ev) (st : SKState)
    (hdowns : downs.all (fun k => k.downF && !k.upF && vkPosB L k) = true)
    (hups : ups.all (fun k => !k.downF && k.upF && vkPosB L k) = true)
    (hlen : downs.length = ups.length)
    (hrun : runKeys L oracle (downs ++ ups) ⟨[base], cc, pc, tr⟩ = .ok st) :
    st.stack = [base] := by
  obtain ⟨mid, h1, h2⟩ := runKeys_append L oracle downs ups _ st hrun
  obtain ⟨pref, hp, hl⟩ := runKeys_downs L oracle downs _ mid hdowns h1
  have h3 := runKeys_ups L oracle ups mid st hups h2
  rw [h3, hp]
  simp only at hp ⊢
  rw [← hlen, ← hl, List.drop_left]

set_option maxRecDepth 40000 in
/-- Witness for C3: one down-transition of virtual key 65 followed by one
up-transition restores the stack to exactly the base snapshot. -/
theorem c3_witness :
    ∃ st, runKeys testLayout noFault
        ([KAction.virtualKey 65 true false] ++ [KAction.virtualKey 65 false true])
        ⟨[base0], 0, 0, []⟩ = .ok st ∧ st.stack = [base0] :=
  ⟨_, rfl, c3_stack_balance testLayout noFault base0
    [KAction.virtualKey 65 true false] [KAction.virtualKey 65 false true]
    0 0 [] _ (by decide) (by decide) rfl rfl⟩

/-! ### Claim C2, amended -/

/-- C2 as amended: whenever an exception occurs during the per-key down/up
loop **and the snapshot stack is nonempty at the raise point**, the
keyboard state is restored to the base snapshot captured at entry
(`keyboard_state_stack[0]`), and the thread-input queues are detached when
attachment succeeded — but the original error is **swallowed**, not
rethrown: `send_keystrokes` prints a diagnostic and returns normally.
(When the stack is empty at the raise point the handler itself raises; see
C9.) -/
theorem c2_swallowed_with_restore (L : Layout) (oracle : Nat → Bool)
    (attachSuccess activateBefore : Bool) (base : KState)
    (keys : List KAction) (e : PErr) (st : SKState)
    (hrun : runKeys L oracle keys
      (initState attachSuccess activateBefore base keys) = .error (e, st))
    (hne : st.stack ≠ []) :
    sendKeystrokesFromKeys L oracle attachSuccess activateBefore base keys
      = .ok (st.trace ++ [.printFehler, .setKeyboardState base]
          ++ postTrace attachSuccess activateBefore)
    ∧ (attachSuccess = true →
        Ev.attachCall false ∈ postTrace attachSuccess activateBefore) := by
  have hinit : baseInv base (initState attachSuccess activateBefore base keys) := by
    intro _
    rfl
  have hinv := runKeys_baseInv L oracle keys _ hinit
  rw [hrun] at hinv
  have hlast : st.stack.getLast? = some base := hinv hne
  constructor
  · unfold sendKeystrokesFromKeys
    rw [hrun]
    dsimp only
    rw [hlast]
  · intro ha
    subst ha
    simp [postTrace]

set_option maxRecDepth 40000 in
/-- Witness for C2 (amended): the first `PostMessage` raises while pressing
key 65; the loop aborts with the stack nonempty, the base snapshot is
restored, the queues are detached, and the call returns normally. -/
theorem c2_swallowed_witness :
    ∃ e st, runKeys testLayout failFirstPost [KAction.virtualKey 65 true true]
        (initState true true base0 [KAction.virtualKey 65 true true])
        = .error (e, st) ∧
      sendKeystrokesFromKeys testLayout failFirstPost true true base0
          [KAction.virtualKey 65 true true]
        = .ok (st.trace ++ [.printFehler, .setKeyboardState base0]
            ++ postTrace true true) :=
  ⟨_, _, rfl, (c2_swallowed_with_restore testLayout failFirstPost true true base0
    [KAction.virtualKey 65 true true] _ _ rfl (by decide)).1⟩

/-! ### Claim C6 -/

/-- C6: over every keystroke string, layout, fault oracle, attachment
outcome and option set, the targeted injection path never posts a key
message whose virtual-key code is zero: every `PostMessage` event in the
trace (normal or exceptional exit alike) carries a strictly positive
code. -/
theorem c6_no_zero_vk_posted (L : Layout) (oracle : Nat → Bool)
    (attachSuccess : Bool) (base : KState) (keystrokes : String)
    (withSpaces withTabs withNewlines activateBefore : Bool) :
    ∀ m v l, Ev.postMessage m v l ∈
      traceOfR (send_keystrokes L oracle attachSuccess base keystrokes
        withSpaces withTabs withNewlines activateBefore) → 0 < v := by
  intro m v l hm
  unfold send_keystrokes at hm
  cases hp : parse_keys keystrokes withSpaces withTabs withNewlines true with
  | error e =>
    rw [hp] at hm
    exact PPv_preTraceBase attachSuccess activateBefore m v l hm
  | ok keys =>
    rw [hp] at hm
    dsimp only at hm
    have hinit : PPv (initState attachSuccess activateBefore base keys).trace :=
      PPv_append (PPv_preTraceBase _ _) (PPv_combosWarn _)
    have hloop := runKeys_PPv L oracle keys
      (initState attachSuccess activateBefore base keys) hinit
    unfold sendKeystrokesFromKeys at hm
    cases hr : runKeys L oracle keys
        (initState attachSuccess activateBefore base keys) with
    | ok stf =>
      rw [hr] at hm hloop
      dsimp only at hm
      exact PPv_append hloop (PPv_postTrace _ _) m v l hm
    | error es =>
      obtain ⟨e1, st1⟩ := es
      rw [hr] at hm hloop
      dsimp only at hm
      cases hl : st1.stack.getLast? with
      | some b =>
        rw [hl] at hm
        dsimp only at hm
        refine PPv_append (PPv_append hloop ?_) (PPv_postTrace _ _) m v l hm
        intro m' v' l' hm'
        simp at hm'
      | none =>
        rw [hl] at hm
        dsimp only at hm
        refine PPv_append hloop ?_ m v l hm
        intro m' v' l' hm'
        simp at hm'

set_option maxRecDepth 40000 in
/-- Witness for C6: typing `"a"` under the test layout posts the key-down
message for virtual key 97, which is positive. -/
theorem c6_witness : 0 < 97 :=
  c6_no_zero_vk_posted testLayout noFault true base0 "a" false false false true
    256 97 1 (by decide)
